import Mathlib

/-!
Verification of the process stream supervisor in `festival-pipe.py`.

The program under study is:

  async def run():
      proc = await asyncio.create_subprocess_shell(
          'python nerd-dictation begin --continuous --numbers-as-digits',
          stdout=asyncio.subprocess.PIPE)
      while True:
          output_str = await proc.stdout.readline()
          print(output_str)

We embed its behaviour shallowly.  The child's stdout is modelled as the
finite list of newline-terminated byte lines still queued, together with
what the stream does once those are exhausted: a clean end-of-file (the
child closed stdout; `readline` then returns `b''` immediately, forever),
a stream error (`readline` raises), or a child that is still running but
never produces output (`readline` suspends and never resumes).

The `while True` loop is embedded with explicit fuel counting loop
iterations; since the loop has no exit, exhausting the fuel leaves the
loop still running.  An event trace records, per iteration, the single
await of `readline` followed by the synchronous hand-off of the line to
the consumer (`print`).
-/

namespace FestivalPipe

/-- A Python `bytes` value: a sequence of byte values. -/
abbrev Bytes := List Nat

/-- Behaviour of the child's stdout once its queued lines are exhausted. -/
inductive Ending where
  /-- The child closed stdout; `readline` returns `b''` immediately, forever. -/
  | cleanEof
  /-- The stream became unreadable (e.g. broken pipe); `readline` raises. -/
  | streamError
  /-- The child is still running but never writes; `readline` suspends forever. -/
  | pending
deriving DecidableEq

/-- The child process's stdout as seen by the supervisor: the queued
newline-terminated lines, then the ending behaviour. -/
structure ChildStream where
  lines : List Bytes
  ending : Ending
deriving DecidableEq

/-- Result of one `await proc.stdout.readline()`. -/
inductive ReadResult where
  /-- The read completed and produced these bytes (possibly `b''` at EOF). -/
  | bytes (b : Bytes)
  /-- The read suspended and (in these executions) never resumes. -/
  | blocked
  /-- The read raised a stream error. -/
  | exn
deriving DecidableEq

/-- `await proc.stdout.readline()`: returns the next queued line (with its
trailing newline); at clean EOF returns the empty bytes immediately; on a
broken stream raises; with a silent, still-running child it suspends. -/
def readline (s : ChildStream) : ReadResult × ChildStream :=
  match s.lines with
  | b :: rest => (ReadResult.bytes b, ⟨rest, s.ending⟩)
  | [] =>
    match s.ending with
    | Ending.cleanEof => (ReadResult.bytes [], s)
    | Ending.streamError => (ReadResult.exn, s)
    | Ending.pending => (ReadResult.blocked, s)

/-- How an execution of the `while True:` loop stands after the observed
iterations. -/
inductive Outcome where
  /-- The loop is about to execute its body again (it has no exit path). -/
  | stillRunning (s : ChildStream)
  /-- The loop is suspended inside `readline`, awaiting output that never comes. -/
  | suspended (s : ChildStream)
  /-- `readline` raised; the exception propagates out of `run()`. -/
  | raised (s : ChildStream)
deriving DecidableEq

/-- The `while True:` loop of `run()`, observed for `fuel` iterations:
each iteration awaits `readline` and then hands the received value to
`print`.  Returns the list of values handed to the consumer, in order,
and how the loop stands afterwards. -/
def runLoop : Nat → ChildStream → List Bytes × Outcome
  | 0, s => ([], Outcome.stillRunning s)
  | Nat.succ n, s =>
    match readline s with
    | (ReadResult.bytes b, s2) =>
      let r := runLoop n s2
      (b :: r.1, r.2)
    | (ReadResult.blocked, s2) => ([], Outcome.suspended s2)
    | (ReadResult.exn, s2) => ([], Outcome.raised s2)

/-- An observable event of the loop: suspending at the single await point,
or handing a value to the consumer. -/
inductive Event where
  | awaitLine
  | deliver (b : Bytes)
deriving DecidableEq

/-- The event trace of the loop over `fuel` iterations: each completed
iteration contributes one await followed by one delivery; an iteration
that suspends forever or raises contributes its await only. -/
def runTrace : Nat → ChildStream → List Event
  | 0, _ => []
  | Nat.succ n, s =>
    match readline s with
    | (ReadResult.bytes b, s2) => Event.awaitLine :: Event.deliver b :: runTrace n s2
    | (ReadResult.blocked, _) => [Event.awaitLine]
    | (ReadResult.exn, _) => [Event.awaitLine]

/-- The value delivered by an event, if it is a delivery. -/
def Event.deliveredValue : Event → Option Bytes
  | Event.awaitLine => none
  | Event.deliver b => some b

/-- Traces in which deliveries happen one at a time: every delivery is
immediately preceded by its own await, and the trace may end with a lone
pending await. -/
inductive OneAtATime : List Event → Prop
  | nil : OneAtATime []
  | lastAwait : OneAtATime [Event.awaitLine]
  | step (b : Bytes) (rest : List Event) : OneAtATime rest →
      OneAtATime (Event.awaitLine :: Event.deliver b :: rest)

/-- Result of `asyncio.create_subprocess_shell`. -/
inductive SpawnResult where
  /-- The shell was spawned; its stdout is this stream. -/
  | spawned (s : ChildStream)
  /-- The spawn itself failed (only possible if the shell is missing). -/
  | launchError
deriving DecidableEq

/-- `asyncio.create_subprocess_shell(cmd, stdout=PIPE)`: spawns the system
shell running `cmd`.  The spawn succeeds whenever the shell itself exists,
regardless of whether the executable named in `cmd` exists; when that
executable is missing, the shell reports the error on stderr and exits,
so stdout sees an immediate clean end-of-file with no lines. -/
def create_subprocess_shell (shellPresent : Bool) (executablePresent : Bool)
    (out : ChildStream) : SpawnResult :=
  if shellPresent then
    SpawnResult.spawned (if executablePresent then out else ⟨[], Ending.cleanEof⟩)
  else SpawnResult.launchError

/-- Result of the whole coroutine `run()`. -/
inductive RunResult where
  /-- The spawn raised, so the read loop was never entered. -/
  | launchFailed
  /-- The read loop was entered; these values were handed to the consumer,
  and the loop stands thus afterwards. -/
  | ran (deliveries : List Bytes) (o : Outcome)
deriving DecidableEq

/-- The coroutine `run()`: spawn the shell command, then enter the
`while True:` read-and-print loop (observed for `fuel` iterations). -/
def run (shellPresent executablePresent : Bool) (out : ChildStream)
    (fuel : Nat) : RunResult :=
  match create_subprocess_shell shellPresent executablePresent out with
  | SpawnResult.launchError => RunResult.launchFailed
  | SpawnResult.spawned s => RunResult.ran (runLoop fuel s).1 (runLoop fuel s).2

/-- Modelled from the spec: the Supervisor state machine
`NotStarted → Running → (Stopped | Exited | Failed)` is present only in the
specification; the source has no state variable.  -/
inductive SupState where
  | notStarted
  | running
  | stopped
  | exited
  | failed
deriving DecidableEq

/-- Modelled from the spec: the Supervisor state corresponding to how the
loop stands.  A loop still running or suspended at its await is `Running`;
an exception propagating out of `run()` is the `Failed` terminal state.
No loop outcome of the source corresponds to `Exited` or `Stopped`. -/
def Outcome.state : Outcome → SupState
  | Outcome.stillRunning _ => SupState.running
  | Outcome.suspended _ => SupState.running
  | Outcome.raised _ => SupState.failed

/-- The hexadecimal digit character Python uses in `\xHH` escapes. -/
def hexDigit (n : Nat) : Char :=
  if n < 10 then Char.ofNat (48 + n) else Char.ofNat (87 + n)

/-- How Python's `repr` of a `bytes` object renders one byte: the escapes
`\t`, `\n`, `\r`, `\'`, `\\`, printable ASCII verbatim, and `\xHH`
otherwise. -/
def escByte (c : Nat) : List Char :=
  if c = 9 then [Char.ofNat 92, Char.ofNat 116]
  else if c = 10 then [Char.ofNat 92, Char.ofNat 110]
  else if c = 13 then [Char.ofNat 92, Char.ofNat 114]
  else if c = 39 then [Char.ofNat 92, Char.ofNat 39]
  else if c = 92 then [Char.ofNat 92, Char.ofNat 92]
  else if 32 ≤ c ∧ c ≤ 126 then [Char.ofNat c]
  else [Char.ofNat 92, Char.ofNat 120, hexDigit (c / 16 % 16), hexDigit (c % 16)]

/-- Python's `repr` (= `str`) of a `bytes` object: `b'` , the escaped
bytes, `'`. -/
def pyReprBytes (b : Bytes) : List Char :=
  Char.ofNat 98 :: Char.ofNat 39 :: ((b.map escByte).flatten ++ [Char.ofNat 39])

/-- What `print(output_str)` emits when `output_str` is a `bytes` value:
the `repr` of the bytes followed by print's own newline. -/
def printedLine (b : Bytes) : List Char :=
  pyReprBytes b ++ [Char.ofNat 10]

theorem escByte_length_pos (c : Nat) : 0 < (escByte c).length := by
  unfold escByte
  repeat' split
  all_goals simp

theorem join_map_escByte_length (b : Bytes) :
    b.length ≤ ((b.map escByte).flatten).length := by
  induction b with
  | nil => simp
  | cons c rest ih =>
    have hc := escByte_length_pos c
    simp only [List.map_cons, List.flatten_cons, List.length_append, List.length_cons]
    omega

theorem pyReprBytes_length (b : Bytes) :
    b.length + 3 ≤ (pyReprBytes b).length := by
  have h := join_map_escByte_length b
  simp only [pyReprBytes, List.length_cons, List.length_append, List.length_singleton]
  omega

theorem printedLine_length (b : Bytes) :
    b.length + 4 ≤ (printedLine b).length := by
  have h := pyReprBytes_length b
  simp only [printedLine, List.length_append, List.length_singleton]
  omega

theorem readline_cons (b : Bytes) (rest : List Bytes) (e : Ending) :
    readline ⟨b :: rest, e⟩ = (ReadResult.bytes b, ⟨rest, e⟩) := rfl

theorem readline_eof :
    readline ⟨[], Ending.cleanEof⟩ =
      (ReadResult.bytes [], ⟨[], Ending.cleanEof⟩) := rfl

theorem runLoop_cons (n : Nat) (b : Bytes) (rest : List Bytes) (e : Ending) :
    runLoop (n + 1) ⟨b :: rest, e⟩ =
      (b :: (runLoop n ⟨rest, e⟩).1, (runLoop n ⟨rest, e⟩).2) := rfl

theorem runLoop_eof (n : Nat) :
    runLoop (n + 1) ⟨[], Ending.cleanEof⟩ =
      (([] : Bytes) :: (runLoop n ⟨[], Ending.cleanEof⟩).1,
        (runLoop n ⟨[], Ending.cleanEof⟩).2) := rfl

theorem runTrace_cons (n : Nat) (b : Bytes) (rest : List Bytes) (e : Ending) :
    runTrace (n + 1) ⟨b :: rest, e⟩ =
      Event.awaitLine :: Event.deliver b :: runTrace n ⟨rest, e⟩ := rfl

theorem runTrace_eof (n : Nat) :
    runTrace (n + 1) ⟨[], Ending.cleanEof⟩ =
      Event.awaitLine :: Event.deliver [] :: runTrace n ⟨[], Ending.cleanEof⟩ := rfl

theorem runLoop_deliveries_exact (L : List Bytes) (e : Ending) :
    (runLoop L.length ⟨L, e⟩).1 = L := by
  induction L with
  | nil => rfl
  | cons b rest ih =>
    rw [List.length_cons, runLoop_cons]
    simp [ih]

theorem runTrace_oneAtATime (n : Nat) : ∀ s, OneAtATime (runTrace n s) := by
  induction n with
  | zero => intro s; exact OneAtATime.nil
  | succ n ih =>
    intro s
    rcases hr : readline s with ⟨r, s2⟩
    cases r with
    | bytes b =>
      have h := ih s2
      simp only [runTrace, hr]
      exact OneAtATime.step b _ h
    | blocked =>
      simp only [runTrace, hr]
      exact OneAtATime.lastAwait
    | exn =>
      simp only [runTrace, hr]
      exact OneAtATime.lastAwait

theorem runTrace_deliveries (n : Nat) :
    ∀ s, (runTrace n s).filterMap Event.deliveredValue = (runLoop n s).1 := by
  induction n with
  | zero => intro s; rfl
  | succ n ih =>
    intro s
    rcases hr : readline s with ⟨r, s2⟩
    cases r with
    | bytes b =>
      have h := ih s2
      simp [runTrace, runLoop, hr, Event.deliveredValue, h]
    | blocked => simp [runTrace, runLoop, hr, Event.deliveredValue]
    | exn => simp [runTrace, runLoop, hr, Event.deliveredValue]

/-- Claim C1.  Failing-input evaluation: the child writes the single line
`b'hi\n'` and then exits cleanly, yet after three loop iterations the
consumer has received the line followed by two further (empty) deliveries,
and the Supervisor is not in the `Exited` state — contradicting
"exactly `L1..Ln`, then no further calls, and the Supervisor reaches
`Exited`". -/
theorem c1_extra_deliveries_after_final_line :
    runLoop 3 ⟨[[104, 105, 10]], Ending.cleanEof⟩ =
      ([[104, 105, 10], [], []], Outcome.stillRunning ⟨[], Ending.cleanEof⟩) ∧
    Outcome.state (runLoop 3 ⟨[[104, 105, 10]], Ending.cleanEof⟩).2 ≠
      SupState.exited :=
  ⟨rfl, by decide⟩

/-- Claim C2.  Failing-input evaluation: after the child closes its output
stream, `readline` does yield the end-of-stream signal (`b''`), but the
loop does not detect it: five further iterations each read and forward the
empty value — a hot retry loop rather than a clean termination. -/
theorem c2_eof_signal_not_detected :
    readline ⟨[], Ending.cleanEof⟩ =
      (ReadResult.bytes [], ⟨[], Ending.cleanEof⟩) ∧
    runLoop 5 ⟨[], Ending.cleanEof⟩ =
      (List.replicate 5 [], Outcome.stillRunning ⟨[], Ending.cleanEof⟩) ∧
    (runTrace 5 ⟨[], Ending.cleanEof⟩).length = 10 :=
  ⟨rfl, rfl, rfl⟩

/-- Claim C3.  Once the child's stream is closed (clean end-of-file), the
read loop never checks for end-of-stream: after any number `n` of
iterations the loop is still about to run its body again, and the trace
shows that every one of the `n` iterations executed fully (one await and
one delivery each) — so `run()` never terminates. -/
theorem c3_loop_retries_forever_after_close :
    ∀ (n : Nat) (L : List Bytes),
      (runLoop n ⟨L, Ending.cleanEof⟩).2 =
        Outcome.stillRunning ⟨L.drop n, Ending.cleanEof⟩ ∧
      (runTrace n ⟨L, Ending.cleanEof⟩).length = 2 * n := by
  intro n
  induction n with
  | zero => intro L; exact ⟨rfl, rfl⟩
  | succ n ih =>
    intro L
    cases L with
    | nil =>
      have h := ih []
      refine ⟨?_, ?_⟩
      · rw [runLoop_eof]
        simpa using h.1
      · rw [runTrace_eof]
        simp only [List.length_cons, h.2]
        omega
    | cons b rest =>
      have h := ih rest
      refine ⟨?_, ?_⟩
      · rw [runLoop_cons]
        simpa using h.1
      · rw [runTrace_cons]
        simp only [List.length_cons, h.2]
        omega

/-- Claim C4.  Failing-input evaluation: with the named executable missing,
`create_subprocess_shell` still succeeds (the shell itself spawns), no
`LaunchError` is raised, and the run loop is entered — its first iteration
already hands a value to the consumer — contradicting "the spawn fails
with a `LaunchError` ... and the run loop is never entered". -/
theorem c4_missing_executable_spawns_and_enters_loop :
    create_subprocess_shell true false ⟨[], Ending.pending⟩ ≠
      SpawnResult.launchError ∧
    run true false ⟨[], Ending.pending⟩ 1 =
      RunResult.ran [[]] (Outcome.stillRunning ⟨[], Ending.cleanEof⟩) :=
  ⟨by decide, rfl⟩

/-- Claim C5.  For a child that never exits and produces no output, the
loop forwards nothing to the consumer and sits suspended at its single
await point: with any fuel the observed deliveries are empty, the loop's
standing is `suspended` (never a termination), and the trace holds exactly
one pending await and no delivery. -/
theorem c5_silent_child_suspends_forever :
    ∀ (n : Nat),
      runLoop (n + 1) ⟨[], Ending.pending⟩ =
        ([], Outcome.suspended ⟨[], Ending.pending⟩) ∧
      runTrace (n + 1) ⟨[], Ending.pending⟩ = [Event.awaitLine] ∧
      Outcome.state (runLoop (n + 1) ⟨[], Ending.pending⟩).2 = SupState.running :=
  fun _ => ⟨rfl, rfl, rfl⟩

/-- Claim C6.  If the stream breaks after the child's queued lines, the
loop delivers exactly those lines, then the read raises: the exception
propagates out of `run()` (the loop stops reading no matter how much more
fuel remains), the Supervisor state is `Failed`, and the previously
delivered lines are unaffected. -/
theorem c6_stream_error_surfaced_loop_stops :
    ∀ (L : List Bytes) (n : Nat),
      runLoop (L.length + n + 1) ⟨L, Ending.streamError⟩ =
        (L, Outcome.raised ⟨[], Ending.streamError⟩) ∧
      Outcome.state (runLoop (L.length + n + 1) ⟨L, Ending.streamError⟩).2 =
        SupState.failed := by
  intro L
  have main : ∀ n, runLoop (L.length + n + 1) ⟨L, Ending.streamError⟩ =
      (L, Outcome.raised ⟨[], Ending.streamError⟩) := by
    induction L with
    | nil =>
      intro n
      have harith : (List.length ([] : List Bytes)) + n + 1 = n + 1 := by simp
      rw [harith]
      rfl
    | cons b rest ih =>
      intro n
      have harith : (b :: rest).length + n + 1 = (rest.length + n + 1) + 1 := by
        simp [List.length_cons]
        omega
      rw [harith, runLoop_cons, ih n]
  intro n
  refine ⟨main n, ?_⟩
  rw [main n]
  rfl

/-- Claim C7.  Every iteration of the run loop performs exactly one
suspension point — the await of `readline` — and each received value is
handed to the consumer synchronously before the loop awaits again: every
trace of the loop alternates one await with one delivery (possibly ending
in a lone pending await), and the delivered values of the trace are
exactly the values handed to the consumer, in order. -/
theorem c7_one_suspension_and_synchronous_delivery :
    ∀ (n : Nat) (s : ChildStream),
      OneAtATime (runTrace n s) ∧
      (runTrace n s).filterMap Event.deliveredValue = (runLoop n s).1 :=
  fun n s => ⟨runTrace_oneAtATime n s, runTrace_deliveries n s⟩

/-- Claim C8.  Once the stream is exhausted with a clean end-of-file,
every `readline` returns the empty byte sequence immediately, and every
loop iteration forwards that empty value to the consumer: with fuel `n`
the consumer receives `n` empty deliveries and the loop is still
running. -/
theorem c8_after_eof_infinite_empty_deliveries :
    ∀ (n : Nat),
      readline ⟨[], Ending.cleanEof⟩ =
        (ReadResult.bytes [], ⟨[], Ending.cleanEof⟩) ∧
      runLoop n ⟨[], Ending.cleanEof⟩ =
        (List.replicate n [], Outcome.stillRunning ⟨[], Ending.cleanEof⟩) := by
  intro n
  refine ⟨rfl, ?_⟩
  induction n with
  | zero => rfl
  | succ n ih =>
    rw [runLoop_eof, ih]
    rfl

/-- Claim C9.  The value forwarded to the consumer each iteration is the
raw byte sequence read from the stream, trailing newline included; and
since `print` renders a `bytes` value via its `repr` (`b'...'`), the
emitted characters are never equal to any decoding of the line into text
(a decoded text has at most as many characters as the line has bytes,
while the `repr` always has strictly more). -/
theorem c9_raw_bytes_forwarded_repr_printed :
    ∀ (content : List Bytes) (e : Ending),
      (runLoop (content.map (fun l => l ++ [10])).length
          ⟨content.map (fun l => l ++ [10]), e⟩).1 =
        content.map (fun l => l ++ [10]) ∧
      ∀ (b : Bytes) (t : List Char), t.length ≤ b.length →
        pyReprBytes b ≠ t ∧ printedLine b ≠ t := by
  intro content e
  refine ⟨runLoop_deliveries_exact _ e, ?_⟩
  intro b t ht
  have h1 := pyReprBytes_length b
  have h2 := printedLine_length b
  constructor
  · intro he
    rw [he] at h1
    omega
  · intro he
    rw [he] at h2
    omega

/-- Witness for C9 at a concrete input: the child writes `b'hi\n'`; the
delivered value is the raw bytes with the newline, and neither the `repr`
printed by the consumer nor the full printed line equals the text
`"hi\n"` the child wrote. -/
theorem c9_witness :
    (runLoop 1 ⟨[[104, 105, 10]], Ending.cleanEof⟩).1 = [[104, 105, 10]] ∧
    pyReprBytes [104, 105, 10] ≠
      [Char.ofNat 104, Char.ofNat 105, Char.ofNat 10] ∧
    printedLine [104, 105, 10] ≠
      [Char.ofNat 104, Char.ofNat 105, Char.ofNat 10] := by
  have h := c9_raw_bytes_forwarded_repr_printed [[104, 105]] Ending.cleanEof
  have h2 := h.2 [104, 105, 10]
    [Char.ofNat 104, Char.ofNat 105, Char.ofNat 10] (by decide)
  exact ⟨h.1, h2.1, h2.2⟩

/-- Claim C10.  Because the child is launched through the system shell,
spawning succeeds for every command — whether or not the named executable
exists: `create_subprocess_shell` returns a spawned process, `run()` never
fails at spawn time, and the read loop is entered in every case. -/
theorem c10_shell_spawn_always_succeeds :
    ∀ (executablePresent : Bool) (out : ChildStream) (n : Nat),
      (∃ s, create_subprocess_shell true executablePresent out =
        SpawnResult.spawned s) ∧
      run true executablePresent out n ≠ RunResult.launchFailed ∧
      ∃ ds o, run true executablePresent out n = RunResult.ran ds o := by
  intro ep out n
  have hspawn : create_subprocess_shell true ep out =
      SpawnResult.spawned (if ep then out else ⟨[], Ending.cleanEof⟩) := rfl
  have hrun : run true ep out n =
      RunResult.ran (runLoop n (if ep then out else ⟨[], Ending.cleanEof⟩)).1
        (runLoop n (if ep then out else ⟨[], Ending.cleanEof⟩)).2 := by
    simp [run, hspawn]
  exact ⟨⟨_, hspawn⟩, by simp [hrun], ⟨_, _, hrun⟩⟩

end FestivalPipe
